import Mathlib

/-!
Shallow embedding of the recipe engagement core of the BC-26-More-Recipes
repository: the recipe controller (create, modify, delete, single read,
discovery dispatch), the Sequelize Recipe model, the favoriter notification
side effect, and a small interleaving model for the atomic vote counter.

Conventions of the embedding:
- The durable store is a `Store` value threaded explicitly; each controller
  returns the HTTP response, the post-state and an ordered list of observable
  side effects (`Event`): filesystem unlinks, store writes and notification
  dispatches, in the order the code issues them.
- Store writes that can fail are parameterised by a success flag (`updateOk`,
  `destroyOk`), modelling the promise rejection path that the code catches.
- Machine integers of the store (vote and view counters) are `Int`.
-/

namespace MoreRecipes

/-- Recipe record of the store. The fields name, ingredients, direction,
vpvotes and downvotes are those declared by the Sequelize Recipe model
(the upvote counter is literally spelled vpvotes there, with default 0);
id, userId, description, imageUrl and viewCount are the further attributes
the controllers read and write on a recipe row. -/
structure Recipe where
  id : Nat
  userId : Nat
  name : String
  description : String
  ingredients : String
  direction : String
  imageUrl : String
  vpvotes : Int
  downvotes : Int
  viewCount : Int
  deriving Repr, DecidableEq

/-- User record of the store (Sequelize User model): name, unique username,
unique email, plus the updatedAt timestamp the controllers eager-include. -/
structure User where
  id : Nat
  name : String
  username : String
  email : String
  updatedAt : Nat
  deriving Repr, DecidableEq

/-- Favorite join row linking a user to a recipe. -/
structure Favorite where
  userId : Nat
  recipeId : Nat
  deriving Repr, DecidableEq

/-- The durable relational store: recipe, user and favorite tables. -/
structure Store where
  recipes : List Recipe
  users : List User
  favorites : List Favorite
  deriving Repr, DecidableEq

/-- JavaScript truthiness of an optional query-string parameter: present and
not the empty string. -/
def truthy : Option String → Bool
  | none => false
  | some s => s != ""

/-- The five discovery strategies getAllRecipes dispatches between. -/
inductive Strategy where
  | mostUpvotes
  | byIngredients
  | byName
  | keyword
  | defaultAll
  deriving Repr, DecidableEq

/-- The discovery query parameters getAllRecipes inspects. -/
structure Query where
  sort : Option String
  order : Option String
  ingredients : Option String
  recipes : Option String
  search : Option String
  deriving Repr, DecidableEq

/-- The conditional cascade of getAllRecipes: sort=upvotes plus
order=descending first, then ingredients, then recipes, then search, else
the default listing. -/
def selectStrategy (q : Query) : Strategy :=
  if q.sort = some "upvotes" ∧ q.order = some "descending" then
    Strategy.mostUpvotes
  else if truthy q.ingredients then Strategy.byIngredients
  else if truthy q.recipes then Strategy.byName
  else if truthy q.search then Strategy.keyword
  else Strategy.defaultAll

/-- A recipe together with the eager-included public attributes of its
owning user, as produced by the include of the User model with attributes
name and updatedAt. -/
structure RecipeWithUser where
  recipe : Recipe
  ownerName : Option String
  ownerUpdatedAt : Option Nat
  deriving Repr, DecidableEq

/-- Resolve the owning user of a recipe and project the included
attributes. -/
def includeOwner (s : Store) (r : Recipe) : RecipeWithUser :=
  match s.users.find? (fun u => u.id == r.userId) with
  | some u => ⟨r, some u.name, some u.updatedAt⟩
  | none => ⟨r, none, none⟩

/-- The default-strategy listing: every recipe of the store, each with its
owning user included. -/
def defaultListing (s : Store) : List RecipeWithUser :=
  s.recipes.map (includeOwner s)

/-- getAllRecipes: dispatches on the query shape; exactly one strategy runs
(the function returns its tag), and only the default strategy produces the
unfiltered listing inline (the other four live in the search module). -/
def getAllRecipes (q : Query) (s : Store) :
    Strategy × Option (List RecipeWithUser) :=
  match selectStrategy q with
  | Strategy.defaultAll => (Strategy.defaultAll, some (defaultListing s))
  | st => (st, none)

/-- C1: for every discovery request exactly one strategy executes, chosen by
first-match-wins priority: sort=upvotes with order=descending selects the
Most-Upvoted strategy even when other parameters are present; otherwise a
truthy ingredients parameter selects the Ingredient strategy; otherwise a
truthy recipes parameter selects the Name strategy; otherwise a truthy
search parameter selects the Keyword strategy; otherwise the Default
strategy returns all recipes, each with the owning user name and
last-update time. -/
theorem claim_C1_selector_priority (q : Query) (s : Store) :
    (q.sort = some "upvotes" ∧ q.order = some "descending" →
      getAllRecipes q s = (Strategy.mostUpvotes, none)) ∧
    (¬(q.sort = some "upvotes" ∧ q.order = some "descending") →
      truthy q.ingredients = true →
      getAllRecipes q s = (Strategy.byIngredients, none)) ∧
    (¬(q.sort = some "upvotes" ∧ q.order = some "descending") →
      truthy q.ingredients = false → truthy q.recipes = true →
      getAllRecipes q s = (Strategy.byName, none)) ∧
    (¬(q.sort = some "upvotes" ∧ q.order = some "descending") →
      truthy q.ingredients = false → truthy q.recipes = false →
      truthy q.search = true →
      getAllRecipes q s = (Strategy.keyword, none)) ∧
    (¬(q.sort = some "upvotes" ∧ q.order = some "descending") →
      truthy q.ingredients = false → truthy q.recipes = false →
      truthy q.search = false →
      getAllRecipes q s = (Strategy.defaultAll, some (defaultListing s))) := by
  refine ⟨?_, ?_, ?_, ?_, ?_⟩
  · intro h
    have hsel : selectStrategy q = Strategy.mostUpvotes := by
      unfold selectStrategy; rw [if_pos h]
    simp [getAllRecipes, hsel]
  · intro hns hi
    have hsel : selectStrategy q = Strategy.byIngredients := by
      unfold selectStrategy; rw [if_neg hns, if_pos hi]
    simp [getAllRecipes, hsel]
  · intro hns hi hr
    have hsel : selectStrategy q = Strategy.byName := by
      unfold selectStrategy
      rw [if_neg hns, if_neg (by simp [hi]), if_pos hr]
    simp [getAllRecipes, hsel]
  · intro hns hi hr hsrch
    have hsel : selectStrategy q = Strategy.keyword := by
      unfold selectStrategy
      rw [if_neg hns, if_neg (by simp [hi]), if_neg (by simp [hr]),
        if_pos hsrch]
    simp [getAllRecipes, hsel]
  · intro hns hi hr hsrch
    have hsel : selectStrategy q = Strategy.defaultAll := by
      unfold selectStrategy
      rw [if_neg hns, if_neg (by simp [hi]), if_neg (by simp [hr]),
        if_neg (by simp [hsrch])]
    simp [getAllRecipes, hsel]

/-- Witness for C1: a request carrying sort=upvotes, order=descending and
also search=foo executes the Most-Upvoted strategy only. -/
theorem claim_C1_selector_priority_witness :
    getAllRecipes
      ⟨some "upvotes", some "descending", none, none, some "foo"⟩
      ⟨[], [], []⟩ = (Strategy.mostUpvotes, none) :=
  (claim_C1_selector_priority
    ⟨some "upvotes", some "descending", none, none, some "foo"⟩
    ⟨[], [], []⟩).1 ⟨rfl, rfl⟩

/-- The whitespace normalization helper of the controller: every maximal run
of whitespace is replaced by a single space (a missing value is treated as
the empty string). -/
def trimWhiteSpaces (s : String) : String :=
  let isJsWs := fun (c : Char) => c = ' ' || c = '\t' || c = '\n' || c = '\r'
  let step := fun (acc : List Char × Bool) (c : Char) =>
    if isJsWs c then
      if acc.2 then acc else (' ' :: acc.1, true)
    else (c :: acc.1, false)
  String.mk ((s.toList.foldl step ([], false)).1.reverse)

/-- A string that is empty or holds only spaces, the degenerate case left
after whitespace normalization. -/
def isBlank (s : String) : Bool := s.toList.all (fun c => c = ' ')

/-- Modelled from the spec: the validate middleware is not under src; the
spec states that name, ingredients and direction must be non-empty after
whitespace normalization, with an error message returned on failure and
nothing on success. -/
def validateRecipeDetails (name ingredients direction : String) :
    Option String :=
  if isBlank name then some "Enter a valid recipe name"
  else if isBlank ingredients then some "Enter valid ingredients"
  else if isBlank direction then some "Enter valid directions"
  else none

/-- An HTTP response of the controller: status code, success flag, message
and the optional recipe payload. -/
structure Resp where
  status : Nat
  success : Bool
  message : String
  recipe? : Option Recipe
  deriving Repr, DecidableEq

/-- Observable side effects of a controller call, in program order:
filesystem unlinks, store writes and notification dispatches. -/
inductive Event where
  | unlink (path : String)
  | dbCreate (id : Nat)
  | dbUpdate (id : Nat)
  | dbDestroy (id : Nat)
  | dbIncrement (id : Nat) (field : String)
  | notifySend (emails : List String)
  deriving Repr, DecidableEq

/-- The asset folder in a non-production environment. -/
def folder : String := "public"

/-- Recipe lookup by primary key. -/
def findById (s : Store) (recipeId : Nat) : Option Recipe :=
  s.recipes.find? (fun r => r.id == recipeId)

/-- The favorite rows of one recipe. -/
def favoritesFor (s : Store) (recipeId : Nat) : List Favorite :=
  s.favorites.filter (fun f => f.recipeId == recipeId)

/-- The email projection of modifyRecipe: the favorite rows of the recipe,
each joined to its user and mapped to the user email, with no
deduplication. -/
def favoriterEmails (s : Store) (recipeId : Nat) : List String :=
  (favoritesFor s recipeId).filterMap
    (fun f => (s.users.find? (fun u => u.id == f.userId)).map User.email)

/-- createRecipe: normalizes the fields, validates them (400 on failure),
stores the record with vote and view counters at their model default 0 and
imageUrl set to the uploaded path or the string null when no file came with
the request, and responds 201 with the created record. -/
def createRecipe (userId : Nat)
    (name description ingredients direction : String)
    (file : Option String) (newId : Nat) (s : Store) :
    Resp × Store × List Event :=
  let filePath : String :=
    match file with
    | some f => "recipes/" ++ f
    | none => "null"
  let name := trimWhiteSpaces name
  let description := trimWhiteSpaces description
  let ingredients := trimWhiteSpaces ingredients
  let direction := trimWhiteSpaces direction
  match validateRecipeDetails name ingredients direction with
  | some msg => (⟨400, false, msg, none⟩, s, [])
  | none =>
    let created : Recipe :=
      { id := newId, userId := userId, name := name,
        description := description, ingredients := ingredients,
        direction := direction, imageUrl := filePath,
        vpvotes := 0, downvotes := 0, viewCount := 0 }
    (⟨201, true, "New Recipe created", some created⟩,
      { s with recipes := s.recipes ++ [created] },
      [Event.dbCreate newId])

/-- modifyRecipe: normalizes name, description and ingredients (direction is
passed through untrimmed, as in the source), validates (400 on failure),
looks the recipe up (404 when absent), rejects a non-owner with 401 after
unlinking the freshly uploaded file, otherwise unlinks the old image when a
replacement was uploaded, then updates the row; on update success it queries
the favoriters, dispatches one notification with their emails and responds
201; on update failure the catch responds 500. -/
def modifyRecipe (userId recipeId : Nat)
    (name description ingredients direction : String)
    (newFile : Option String) (updateOk : Bool) (s : Store) :
    Resp × Store × List Event :=
  let imageUrlNew : Option String := newFile.map (fun f => "recipes/" ++ f)
  let name := trimWhiteSpaces name
  let description := trimWhiteSpaces description
  let ingredients := trimWhiteSpaces ingredients
  match validateRecipeDetails name ingredients direction with
  | some msg => (⟨400, false, msg, none⟩, s, [])
  | none =>
    match findById s recipeId with
    | none =>
      (⟨404, false, "No matching recipe with id: " ++ toString recipeId,
        none⟩, s, [])
    | some recipeFound =>
      if recipeFound.userId != userId then
        (⟨401, false, "You cannot modify a recipe not created by You!",
          none⟩, s,
          [Event.unlink ("client/" ++ folder ++ "/" ++
            imageUrlNew.getD "null")])
      else
        let imageUrl := imageUrlNew.getD recipeFound.imageUrl
        let preEvents : List Event :=
          match imageUrlNew with
          | none => []
          | some _ =>
            [Event.unlink
              ("client/" ++ folder ++ "/" ++ recipeFound.imageUrl)]
        if updateOk then
          let updated : Recipe :=
            { recipeFound with
              name := name
              description := description
              ingredients := ingredients
              imageUrl := imageUrl
              direction := direction }
          let newRecipes :=
            s.recipes.map (fun r => if r.id == recipeId then updated else r)
          let s2 : Store := { s with recipes := newRecipes }
          let emails := favoriterEmails s recipeId
          (⟨201, true, "Recipe record updated", some updated⟩, s2,
            preEvents ++ [Event.dbUpdate recipeId, Event.notifySend emails])
        else
          (⟨500, false, "Error Modifying Recipe", none⟩, s, preEvents)

/-- deleteRecipe: looks the recipe up (404 when absent), rejects a non-owner
with 401, otherwise destroys the row and only then unlinks the image file,
responding 205; on destroy failure the catch responds 500 and no unlink
happens. -/
def deleteRecipe (userId recipeId : Nat) (destroyOk : Bool) (s : Store) :
    Resp × Store × List Event :=
  match findById s recipeId with
  | none =>
    (⟨404, false, "No matching recipe with id: " ++ toString recipeId,
      none⟩, s, [])
  | some recipeFound =>
    if recipeFound.userId != userId then
      (⟨401, false, "You cannot delete this recipe", none⟩, s, [])
    else if destroyOk then
      let newRecipes := s.recipes.filter (fun r => r.id != recipeId)
      (⟨205, true, "Recipe Deleted!", none⟩,
        { s with recipes := newRecipes },
        [Event.dbDestroy recipeId,
          Event.unlink ("client/" ++ folder ++ "/" ++ recipeFound.imageUrl)])
    else
      (⟨500, false, "Error Deleting Recipe", none⟩, s, [])

/-- getRecipe: looks the recipe up (404 when absent), increments its view
counter as a side effect, and responds 201 with the reloaded record. -/
def getRecipe (recipeId : Nat) (s : Store) : Resp × Store × List Event :=
  match findById s recipeId with
  | none =>
    (⟨404, false, "No matching recipe with id: " ++ toString recipeId,
      none⟩, s, [])
  | some recipeFound =>
    let reloaded :=
      { recipeFound with viewCount := recipeFound.viewCount + 1 }
    let newRecipes :=
      s.recipes.map (fun r => if r.id == recipeId then reloaded else r)
    (⟨201, true, "Recipe found", some reloaded⟩,
      { s with recipes := newRecipes },
      [Event.dbIncrement recipeId "viewCount"])

/-- Direction of a vote. -/
inductive VoteDir where
  | up
  | down
  deriving Repr, DecidableEq

/-- Modelled from the spec: the Vote Tally (its controller is not under src)
increments the counter matching the vote direction through the store atomic
increment primitive, never by an application-level read-modify-write. -/
def applyVote (dir : VoteDir) (r : Recipe) : Recipe :=
  match dir with
  | VoteDir.up => { r with vpvotes := r.vpvotes + 1 }
  | VoteDir.down => { r with downvotes := r.downvotes + 1 }

/-- Modelled from the spec: the vote endpoint looks the recipe up, fails
with NotFound when absent, otherwise applies the atomic increment and
responds with the reloaded record; no notification is dispatched. -/
def voteRecipe (dir : VoteDir) (recipeId : Nat) (s : Store) :
    Resp × Store × List Event :=
  match findById s recipeId with
  | none =>
    (⟨404, false, "No matching recipe with id: " ++ toString recipeId,
      none⟩, s, [])
  | some recipeFound =>
    let updated := applyVote dir recipeFound
    let newRecipes :=
      s.recipes.map (fun r => if r.id == recipeId then updated else r)
    (⟨201, true, "Recipe updated", some updated⟩,
      { s with recipes := newRecipes },
      [Event.dbIncrement recipeId
        (match dir with
          | VoteDir.up => "upvotes"
          | VoteDir.down => "downvotes")])

/-- Notification dispatch events. -/
def isNotify : Event → Bool
  | Event.notifySend _ => true
  | _ => false

/-- Store write events. -/
def isStoreWrite : Event → Bool
  | Event.dbCreate _ => true
  | Event.dbUpdate _ => true
  | Event.dbDestroy _ => true
  | Event.dbIncrement _ _ => true
  | _ => false

/-- Number of notification dispatches in a trace. -/
def countNotify (tr : List Event) : Nat := tr.countP isNotify

/-- Checks that every notification dispatch in the trace is preceded by a
committed store update; the flag records whether an update was already
seen. -/
def notifyAfterCommit : List Event → Bool → Bool
  | [], _ => true
  | Event.dbUpdate _ :: tr, _ => notifyAfterCommit tr true
  | Event.notifySend _ :: tr, seen => seen && notifyAfterCommit tr seen
  | _ :: tr, seen => notifyAfterCommit tr seen

/-- Modelled from the spec: the notify service (not under src) emits one
message per address in the list it is handed; the delivery count of a trace
is the total number of addresses across its notification dispatches. -/
def deliveries (tr : List Event) : Nat :=
  (tr.map (fun e =>
    match e with
    | Event.notifySend emails => emails.length
    | _ => 0)).sum

/-- Example recipe row used by concrete checks. -/
def exRecipe : Recipe :=
  ⟨1, 10, "Jollof", "d", "rice, oil", "boil", "recipes/old.png", 3, 1, 0⟩

/-- Example user row used by concrete checks. -/
def exUser : User := ⟨10, "Ada", "ada", "ada@x.com", 0⟩

/-- Example store with one recipe, its owner, and two favorite rows of the
same user for that recipe. -/
def exStore : Store := ⟨[exRecipe], [exUser], [⟨10, 1⟩, ⟨10, 1⟩]⟩

/-- C3: an update or delete request on a recipe whose userId differs from
the requester fails with 401 Unauthorized, leaves the store unchanged (in
particular the recipe record), and issues no store write at any point of
the trace. -/
theorem claim_C3_ownership_guard (userId recipeId : Nat)
    (name description ingredients direction : String)
    (newFile : Option String) (updateOk destroyOk : Bool) (s : Store)
    (r : Recipe) (hfind : findById s recipeId = some r)
    (hown : r.userId ≠ userId)
    (hval : validateRecipeDetails (trimWhiteSpaces name)
      (trimWhiteSpaces ingredients) direction = none) :
    (modifyRecipe userId recipeId name description ingredients direction
        newFile updateOk s).1.status = 401 ∧
    (modifyRecipe userId recipeId name description ingredients direction
        newFile updateOk s).2.1 = s ∧
    (∀ e ∈ (modifyRecipe userId recipeId name description ingredients
        direction newFile updateOk s).2.2, isStoreWrite e = false) ∧
    (deleteRecipe userId recipeId destroyOk s).1.status = 401 ∧
    (deleteRecipe userId recipeId destroyOk s).2.1 = s ∧
    (deleteRecipe userId recipeId destroyOk s).2.2 = [] := by
  have hbne : (r.userId != userId) = true := by
    simpa [bne_iff_ne] using hown
  refine ⟨?_, ?_, ?_, ?_, ?_, ?_⟩ <;>
    simp [modifyRecipe, deleteRecipe, hval, hfind, hbne, isStoreWrite]

/-- Witness for C3: user 99 can neither modify nor delete recipe 1 of
user 10, and the store is untouched. -/
theorem claim_C3_ownership_guard_witness :
    (modifyRecipe 99 1 "New" "d" "rice" "boil" none true exStore).1.status
        = 401 ∧
    (modifyRecipe 99 1 "New" "d" "rice" "boil" none true
        exStore).2.1 = exStore ∧
    (∀ e ∈ (modifyRecipe 99 1 "New" "d" "rice" "boil" none true
        exStore).2.2, isStoreWrite e = false) ∧
    (deleteRecipe 99 1 true exStore).1.status = 401 ∧
    (deleteRecipe 99 1 true exStore).2.1 = exStore ∧
    (deleteRecipe 99 1 true exStore).2.2 = [] :=
  claim_C3_ownership_guard 99 1 "New" "d" "rice" "boil" none true true
    exStore exRecipe (by decide) (by decide) (by decide)

/-- C4 fails on the code: modifying recipe 1 with a replacement image while
the database update fails still unlinks the old image file, although the
unchanged record keeps referencing it. -/
theorem claim_C4_counterexample :
    (modifyRecipe 10 1 "New" "d" "rice" "boil" (some "new.png") false
        exStore).2.2 = [Event.unlink "client/public/recipes/old.png"] ∧
    (modifyRecipe 10 1 "New" "d" "rice" "boil" (some "new.png") false
        exStore).1.status = 500 ∧
    (modifyRecipe 10 1 "New" "d" "rice" "boil" (some "new.png") false
        exStore).2.1 = exStore ∧
    findById exStore 1 = some exRecipe ∧
    exRecipe.imageUrl = "recipes/old.png" := by
  decide

/-- C4 amended: on delete, the image file is unlinked only after the destroy
succeeds (a failing destroy unlinks nothing; a successful destroy places
the unlink after the destroy event); on update with a replacement image, the
old image file is unlinked before the database update is issued, whether or
not the update succeeds. -/
theorem claim_C4_cleanup_order (userId recipeId : Nat)
    (name description ingredients direction : String) (f : String)
    (updateOk : Bool) (s : Store) (r : Recipe)
    (hfind : findById s recipeId = some r) (hown : r.userId = userId)
    (hval : validateRecipeDetails (trimWhiteSpaces name)
      (trimWhiteSpaces ingredients) direction = none) :
    (deleteRecipe userId recipeId false s).2.2 = [] ∧
    (deleteRecipe userId recipeId true s).2.2 =
      [Event.dbDestroy recipeId,
        Event.unlink ("client/" ++ folder ++ "/" ++ r.imageUrl)] ∧
    (modifyRecipe userId recipeId name description ingredients direction
        (some f) updateOk s).2.2.head? =
      some (Event.unlink ("client/" ++ folder ++ "/" ++ r.imageUrl)) := by
  have hbeq : (r.userId != userId) = false := by
    simp [bne_iff_ne, hown]
  refine ⟨?_, ?_, ?_⟩ <;>
    cases updateOk <;>
    simp [modifyRecipe, deleteRecipe, hval, hfind, hbeq]

/-- Witness for C4 amended: concrete delete and update of recipe 1. -/
theorem claim_C4_cleanup_order_witness :
    (deleteRecipe 10 1 false exStore).2.2 = [] ∧
    (deleteRecipe 10 1 true exStore).2.2 =
      [Event.dbDestroy 1,
        Event.unlink ("client/" ++ folder ++ "/" ++ exRecipe.imageUrl)] ∧
    (modifyRecipe 10 1 "New" "d" "rice" "boil" (some "new.png") true
        exStore).2.2.head? =
      some (Event.unlink ("client/" ++ folder ++ "/" ++ exRecipe.imageUrl)) :=
  claim_C4_cleanup_order 10 1 "New" "d" "rice" "boil" "new.png" true exStore
    exRecipe (by decide) (by decide) (by decide)

/-- C5: the favoriter notification is dispatched exactly once per successful
recipe update, strictly after the update commit event, and zero times by a
failed update, by create, by delete, and by a vote. -/
theorem claim_C5_notification_scope (userId recipeId newId : Nat)
    (name description ingredients direction : String)
    (file newFile : Option String) (destroyOk : Bool) (dir : VoteDir)
    (s : Store) (r : Recipe)
    (hfind : findById s recipeId = some r) (hown : r.userId = userId)
    (hval : validateRecipeDetails (trimWhiteSpaces name)
      (trimWhiteSpaces ingredients) direction = none) :
    countNotify (modifyRecipe userId recipeId name description ingredients
        direction newFile true s).2.2 = 1 ∧
    notifyAfterCommit (modifyRecipe userId recipeId name description
        ingredients direction newFile true s).2.2 false = true ∧
    countNotify (modifyRecipe userId recipeId name description ingredients
        direction newFile false s).2.2 = 0 ∧
    countNotify (createRecipe userId name description ingredients direction
        file newId s).2.2 = 0 ∧
    countNotify (deleteRecipe userId recipeId destroyOk s).2.2 = 0 ∧
    countNotify (voteRecipe dir recipeId s).2.2 = 0 := by
  have hbeq : (r.userId != userId) = false := by
    simp [bne_iff_ne, hown]
  refine ⟨?_, ?_, ?_, ?_, ?_, ?_⟩
  · cases newFile <;>
      simp [modifyRecipe, hval, hfind, hbeq, countNotify, isNotify]
  · cases newFile <;>
      simp [modifyRecipe, hval, hfind, hbeq, notifyAfterCommit]
  · cases newFile <;>
      simp [modifyRecipe, hval, hfind, hbeq, countNotify, isNotify]
  · cases hv : validateRecipeDetails (trimWhiteSpaces name)
        (trimWhiteSpaces ingredients) (trimWhiteSpaces direction) <;>
      simp [createRecipe, hv, countNotify, isNotify]
  · cases destroyOk <;>
      simp [deleteRecipe, hfind, hbeq, countNotify, isNotify]
  · simp [voteRecipe, hfind, countNotify, isNotify]

/-- Witness for C5: concrete update, create, delete and vote calls on the
example store. -/
theorem claim_C5_notification_scope_witness :
    countNotify (modifyRecipe 10 1 "New" "d" "rice" "boil" none true
        exStore).2.2 = 1 ∧
    notifyAfterCommit (modifyRecipe 10 1 "New" "d" "rice" "boil" none true
        exStore).2.2 false = true ∧
    countNotify (modifyRecipe 10 1 "New" "d" "rice" "boil" none false
        exStore).2.2 = 0 ∧
    countNotify (createRecipe 10 "New" "d" "rice" "boil" none 5
        exStore).2.2 = 0 ∧
    countNotify (deleteRecipe 10 1 true exStore).2.2 = 0 ∧
    countNotify (voteRecipe VoteDir.up 1 exStore).2.2 = 0 :=
  claim_C5_notification_scope 10 1 5 "New" "d" "rice" "boil" none none true
    VoteDir.up exStore exRecipe (by decide) (by decide) (by decide)

/-- C6 fails on the code: in a store where recipe 1 carries two favorite
rows of the same user, a successful update dispatches two deliveries to one
distinct address, because the email projection is a plain map with no
deduplication. -/
theorem claim_C6_counterexample :
    deliveries (modifyRecipe 10 1 "New" "d" "rice" "boil" none true
        exStore).2.2 = 2 ∧
    (favoriterEmails exStore 1).dedup.length = 1 := by
  decide

/-- C6 amended: for every successful update, the delivery count equals the
length of the projected favoriter email list, one email per favorite row
joined to its user and no deduplication; whenever the projected addresses
are pairwise distinct this coincides with the number of distinct addresses,
and a recipe with no favorite rows yields zero deliveries. -/
theorem claim_C6_delivery_count (userId recipeId : Nat)
    (name description ingredients direction : String)
    (newFile : Option String) (s : Store) (r : Recipe)
    (hfind : findById s recipeId = some r) (hown : r.userId = userId)
    (hval : validateRecipeDetails (trimWhiteSpaces name)
      (trimWhiteSpaces ingredients) direction = none) :
    deliveries (modifyRecipe userId recipeId name description ingredients
        direction newFile true s).2.2 =
      (favoriterEmails s recipeId).length ∧
    ((favoriterEmails s recipeId).Nodup →
      deliveries (modifyRecipe userId recipeId name description ingredients
        direction newFile true s).2.2 =
      (favoriterEmails s recipeId).dedup.length) ∧
    (favoritesFor s recipeId = [] →
      deliveries (modifyRecipe userId recipeId name description ingredients
        direction newFile true s).2.2 = 0) := by
  have hbeq : (r.userId != userId) = false := by
    simp [bne_iff_ne, hown]
  have hdel : deliveries (modifyRecipe userId recipeId name description
      ingredients direction newFile true s).2.2 =
      (favoriterEmails s recipeId).length := by
    cases newFile <;>
      simp [modifyRecipe, hval, hfind, hbeq, deliveries]
  refine ⟨hdel, ?_, ?_⟩
  · intro hnd
    rw [hdel, hnd.dedup]
  · intro hfav
    rw [hdel]
    simp [favoriterEmails, hfav]

/-- Witness for C6 amended: updating a recipe with no favorite rows yields
zero deliveries. -/
theorem claim_C6_delivery_count_witness :
    deliveries (modifyRecipe 10 1 "New" "d" "rice" "boil" none true
        ⟨[exRecipe], [exUser], []⟩).2.2 =
      (favoriterEmails ⟨[exRecipe], [exUser], []⟩ 1).length :=
  (claim_C6_delivery_count 10 1 "New" "d" "rice" "boil" none
    ⟨[exRecipe], [exUser], []⟩ exRecipe (by decide) (by decide)
    (by decide)).1

/-- Updating the row matched by findById leaves it the first match of the
lookup predicate, so a reload after the write sees the written row. -/
theorem find?_map_update (l : List Recipe) (recipeId : Nat) (r upd : Recipe)
    (h : l.find? (fun x => x.id == recipeId) = some r)
    (hid : upd.id = recipeId) :
    (l.map (fun x => if x.id == recipeId then upd else x)).find?
      (fun x => x.id == recipeId) = some upd := by
  induction l with
  | nil => simp at h
  | cons a l ih =>
    by_cases ha : (a.id == recipeId) = true
    · simp only [List.map_cons, if_pos ha]
      have hupd : (upd.id == recipeId) = true := by simp [hid]
      exact List.find?_cons_of_pos _ hupd
    · have hstep : List.find? (fun x => x.id == recipeId) (a :: l) =
          List.find? (fun x => x.id == recipeId) l :=
        List.find?_cons_of_neg _ ha
      rw [hstep] at h
      simp only [List.map_cons, if_neg ha]
      have hstep2 : List.find? (fun x => x.id == recipeId)
          (a :: l.map (fun x => if x.id == recipeId then upd else x)) =
          List.find? (fun x => x.id == recipeId)
            (l.map (fun x => if x.id == recipeId then upd else x)) :=
        List.find?_cons_of_neg _ ha
      rw [hstep2]
      exact ih h

/-- One successful single-recipe read: 201 response carrying the reloaded
record with the view count up by one, and the store reflecting it. -/
theorem getRecipe_found (recipeId : Nat) (s : Store) (r : Recipe)
    (hfind : findById s recipeId = some r) :
    (getRecipe recipeId s).1.status = 201 ∧
    (getRecipe recipeId s).1.recipe? =
      some { r with viewCount := r.viewCount + 1 } ∧
    findById (getRecipe recipeId s).2.1 recipeId =
      some { r with viewCount := r.viewCount + 1 } := by
  have hid : r.id = recipeId := by
    have := List.find?_some hfind
    simpa using this
  have hfind2 : findById (getRecipe recipeId s).2.1 recipeId =
      some { r with viewCount := r.viewCount + 1 } := by
    simp only [getRecipe, findById] at hfind ⊢
    rw [hfind]
    exact find?_map_update s.recipes recipeId r _ hfind (by simpa using hid)
  refine ⟨?_, ?_, hfind2⟩
  · simp [getRecipe, hfind]
  · simp [getRecipe, hfind]

/-- C7: reading an existing recipe responds 201 with the reloaded record
whose view count rose by exactly one, the store now holds that count, and a
second read yields the starting count plus two. -/
theorem claim_C7_view_increment (recipeId : Nat) (s : Store) (r : Recipe)
    (hfind : findById s recipeId = some r) :
    (getRecipe recipeId s).1.status = 201 ∧
    (getRecipe recipeId s).1.recipe? =
      some { r with viewCount := r.viewCount + 1 } ∧
    findById (getRecipe recipeId s).2.1 recipeId =
      some { r with viewCount := r.viewCount + 1 } ∧
    ((getRecipe recipeId (getRecipe recipeId s).2.1).1.recipe?.map
      Recipe.viewCount) = some (r.viewCount + 2) := by
  obtain ⟨h1, h2, h3⟩ := getRecipe_found recipeId s r hfind
  obtain ⟨h4, h5, h6⟩ := getRecipe_found recipeId (getRecipe recipeId s).2.1
    { r with viewCount := r.viewCount + 1 } h3
  refine ⟨h1, h2, h3, ?_⟩
  rw [h5]
  show some (r.viewCount + 1 + 1) = some (r.viewCount + 2)
  congr 1
  omega

/-- Witness for C7: two consecutive reads of recipe 1 take its view count
from 0 to 2. -/
theorem claim_C7_view_increment_witness :
    ((getRecipe 1 (getRecipe 1 exStore).2.1).1.recipe?.map
      Recipe.viewCount) = some (exRecipe.viewCount + 2) :=
  (claim_C7_view_increment 1 exStore exRecipe (by decide)).2.2.2

/-- C8 fails on the code: a create request with an all-whitespace name and
an update request with an empty name are both answered with HTTP status
400, not the 403 the inherited scheme prescribes for validation failure. -/
theorem claim_C8_counterexample :
    (createRecipe 10 "   " "d" "rice" "boil" none 5 exStore).1.status
        = 400 ∧
    (modifyRecipe 10 1 "" "d" "rice" "boil" none true exStore).1.status
        = 400 ∧
    (createRecipe 10 "   " "d" "rice" "boil" none 5 exStore).1.status
        ≠ 403 := by
  decide

/-- C8 amended: every create or update request that fails field validation
(name, ingredients or direction blank after whitespace normalization) is
answered with HTTP status code 400; the recipes controller does not use the
403 of the inherited scheme for validation failure. -/
theorem claim_C8_validation_status (userId recipeId newId : Nat)
    (name description ingredients direction : String)
    (file newFile : Option String) (updateOk : Bool) (s : Store) :
    (∀ msg, validateRecipeDetails (trimWhiteSpaces name)
        (trimWhiteSpaces ingredients) (trimWhiteSpaces direction)
        = some msg →
      (createRecipe userId name description ingredients direction file
        newId s).1.status = 400) ∧
    (∀ msg, validateRecipeDetails (trimWhiteSpaces name)
        (trimWhiteSpaces ingredients) direction = some msg →
      (modifyRecipe userId recipeId name description ingredients direction
        newFile updateOk s).1.status = 400) := by
  constructor
  · intro msg hmsg
    simp [createRecipe, hmsg]
  · intro msg hmsg
    simp [modifyRecipe, hmsg]

/-- Witness for C8 amended: the blank-name create and empty-name update hit
the 400 path. -/
theorem claim_C8_validation_status_witness :
    (createRecipe 10 "   " "d" "rice" "boil" none 5 exStore).1.status
        = 400 ∧
    (modifyRecipe 10 1 "" "d" "rice" "boil" none true exStore).1.status
        = 400 :=
  ⟨(claim_C8_validation_status 10 1 5 "   " "d" "rice" "boil" none none
      true exStore).1 "Enter a valid recipe name" (by decide),
    (claim_C8_validation_status 10 1 5 "" "d" "rice" "boil" none none
      true exStore).2 "Enter a valid recipe name" (by decide)⟩

/-- C9: the vote counters of a freshly created recipe both take the model
default 0 (the model spells the upvote column vpvotes), and a vote in
either direction keeps both counters non-negative. -/
theorem claim_C9_nonneg_counters (userId newId : Nat)
    (name description ingredients direction : String)
    (file : Option String) (s : Store) (c : Recipe) (dir : VoteDir)
    (r : Recipe)
    (hc : (createRecipe userId name description ingredients direction file
      newId s).1.recipe? = some c)
    (hup : 0 ≤ r.vpvotes) (hdown : 0 ≤ r.downvotes) :
    c.vpvotes = 0 ∧ c.downvotes = 0 ∧
    0 ≤ (applyVote dir r).vpvotes ∧ 0 ≤ (applyVote dir r).downvotes := by
  have hcounters : c.vpvotes = 0 ∧ c.downvotes = 0 := by
    cases hv : validateRecipeDetails (trimWhiteSpaces name)
        (trimWhiteSpaces ingredients) (trimWhiteSpaces direction) with
    | none =>
      simp [createRecipe, hv] at hc
      simp [← hc]
    | some msg =>
      simp [createRecipe, hv] at hc
  refine ⟨hcounters.1, hcounters.2, ?_, ?_⟩ <;>
    cases dir <;> simp [applyVote] <;> omega

/-- Witness for C9: a concretely created recipe starts at 0 and 0, and an
upvote on the example recipe keeps both counters non-negative. -/
theorem claim_C9_nonneg_counters_witness :
    ∃ c, (createRecipe 10 "New" "d" "rice" "boil" none 5
        exStore).1.recipe? = some c ∧
      c.vpvotes = 0 ∧ c.downvotes = 0 ∧
      0 ≤ (applyVote VoteDir.up exRecipe).vpvotes ∧
      0 ≤ (applyVote VoteDir.up exRecipe).downvotes := by
  refine ⟨⟨5, 10, "New", "d", "rice", "boil", "null", 0, 0, 0⟩, by decide,
    ?_⟩
  have := claim_C9_nonneg_counters 10 5 "New" "d" "rice" "boil" none
    exStore ⟨5, 10, "New", "d", "rice", "boil", "null", 0, 0, 0⟩
    VoteDir.up exRecipe (by decide) (by decide) (by decide)
  exact ⟨this.1, this.2.1, this.2.2.1, this.2.2.2⟩

/-- C10: a recipe created without an uploaded file stores the four-character
string null in its imageUrl, so every successfully created record carries a
non-null imageUrl string. -/
theorem claim_C10_imageUrl_null_string (userId newId : Nat)
    (name description ingredients direction : String)
    (s : Store) (c : Recipe)
    (hc : (createRecipe userId name description ingredients direction none
      newId s).1.recipe? = some c) :
    c.imageUrl = "null" ∧ c.imageUrl.length = 4 := by
  cases hv : validateRecipeDetails (trimWhiteSpaces name)
      (trimWhiteSpaces ingredients) (trimWhiteSpaces direction) with
  | none =>
    simp [createRecipe, hv] at hc
    refine ⟨by simp [← hc], ?_⟩
    rw [← hc]
    show ("null" : String).length = 4
    decide
  | some msg =>
    simp [createRecipe, hv] at hc

/-- Witness for C10: a concrete create call without a file yields the
string null. -/
theorem claim_C10_imageUrl_null_string_witness :
    ∃ c, (createRecipe 10 "New" "d" "rice" "boil" none 5
        exStore).1.recipe? = some c ∧
      c.imageUrl = "null" ∧ c.imageUrl.length = 4 := by
  refine ⟨⟨5, 10, "New", "d", "rice", "boil", "null", 0, 0, 0⟩, by decide,
    claim_C10_imageUrl_null_string 10 5 "New" "d" "rice" "boil" exStore
      ⟨5, 10, "New", "d", "rice", "boil", "null", 0, 0, 0⟩ (by decide)⟩

/-- Modelled from the spec: a store primitive acting on one shared per-row
counter. incr is the atomic single-step increment of the Store Adapter;
read and write are the two halves of an application-level read-modify-write,
included so that the model genuinely distinguishes the two designs. -/
inductive Prim where
  | incr
  | read
  | write
  deriving Repr, DecidableEq

/-- One in-flight request: its remaining program of store primitives and a
local register for the read-modify-write variant. -/
structure Thread where
  prog : List Prim
  reg : Int
  deriving Repr, DecidableEq

/-- Execute the next primitive of one thread against the shared counter. -/
def doStep (shared : Int) (t : Thread) : Int × Thread :=
  match t.prog with
  | [] => (shared, t)
  | Prim.incr :: rest => (shared + 1, { t with prog := rest })
  | Prim.read :: rest => (shared, { prog := rest, reg := shared })
  | Prim.write :: rest => (t.reg + 1, { t with prog := rest })

/-- Run a schedule, an arbitrary interleaving given as a list of thread
indices; an index out of range or pointing at a finished thread is a
no-op. -/
def execSched (sched : List Nat) (shared : Int) (ts : List Thread) :
    Int × List Thread :=
  match sched with
  | [] => (shared, ts)
  | i :: rest =>
    match ts.get? i with
    | none => execSched rest shared ts
    | some t =>
      let p := doStep shared t
      execSched rest p.1 (ts.set i p.2)

/-- Total number of primitives still pending across all threads. -/
def pending (ts : List Thread) : Nat :=
  (ts.map (fun t => t.prog.length)).sum

/-- Every pending primitive of every thread is the atomic increment. -/
def incrOnly (ts : List Thread) : Prop :=
  ∀ t ∈ ts, ∀ p ∈ t.prog, p = Prim.incr

/-- N concurrent upvote requests, each a single atomic increment. -/
def upvoteThreads (n : Nat) : List Thread :=
  List.replicate n ⟨[Prim.incr], 0⟩

theorem pending_set (ts : List Thread) (i : Nat) (t t2 : Thread)
    (h : ts.get? i = some t) :
    pending (ts.set i t2) + t.prog.length =
      pending ts + t2.prog.length := by
  induction ts generalizing i with
  | nil => simp at h
  | cons a l ih =>
    cases i with
    | zero =>
      simp only [List.get?] at h
      cases h
      simp [pending, List.set]
      omega
    | succ j =>
      simp only [List.get?] at h
      have := ih j h
      simp only [pending, List.set, List.map_cons, List.sum_cons] at this ⊢
      omega

theorem incrOnly_set (ts : List Thread) (i : Nat) (t2 : Thread)
    (h : incrOnly ts) (h2 : ∀ p ∈ t2.prog, p = Prim.incr) :
    incrOnly (ts.set i t2) := by
  intro t ht p hp
  rcases List.mem_or_eq_of_mem_set ht with hmem | rfl
  · exact h t hmem p hp
  · exact h2 p hp

/-- Invariant of atomic-increment interleavings: the shared counter plus the
number of pending increments never changes, whatever the schedule. -/
theorem execSched_invariant (sched : List Nat) (shared : Int)
    (ts : List Thread) (h : incrOnly ts) :
    (execSched sched shared ts).1 +
        ((pending (execSched sched shared ts).2 : Int)) =
      shared + pending ts := by
  induction sched generalizing shared ts with
  | nil => simp [execSched]
  | cons i rest ih =>
    cases hg : ts.get? i with
    | none =>
      simp only [execSched, hg]
      exact ih shared ts h
    | some t =>
      have htmem : t ∈ ts := List.get?_mem hg
      cases hp : t.prog with
      | nil =>
        have hstep : doStep shared t = (shared, t) := by
          simp [doStep, hp]
        have hpend := pending_set ts i t t hg
        have hinv : incrOnly (ts.set i t) :=
          incrOnly_set ts i t h (fun p hp2 => h t htmem p hp2)
        simp only [execSched, hg, hstep]
        have := ih shared (ts.set i t) hinv
        omega
      | cons p ps =>
        have hpincr : p = Prim.incr := by
          exact h t htmem p (by rw [hp]; exact List.mem_cons_self p ps)
        subst hpincr
        have hstep : doStep shared t = (shared + 1, { t with prog := ps }) := by
          simp [doStep, hp]
        have hpend := pending_set ts i t { t with prog := ps } hg
        have hinv : incrOnly (ts.set i { t with prog := ps }) := by
          refine incrOnly_set ts i _ h ?_
          intro q hq
          exact h t htmem q (by rw [hp]; exact List.mem_cons_of_mem _ hq)
        simp only [execSched, hg, hstep]
        have := ih (shared + 1) (ts.set i { t with prog := ps }) hinv
        simp only [hp, List.length_cons] at hpend
        omega

/-- C2: any interleaving of N concurrent upvotes that runs all of them to
completion leaves the shared upvote counter exactly N above its starting
value: the atomic single-step increment loses no update, whatever the
schedule. -/
theorem claim_C2_no_lost_updates (n : Nat) (start : Int) (sched : List Nat)
    (hdone : pending (execSched sched start (upvoteThreads n)).2 = 0) :
    (execSched sched start (upvoteThreads n)).1 = start + n := by
  have hincr : incrOnly (upvoteThreads n) := by
    intro t ht p hp
    have := List.eq_of_mem_replicate ht
    subst this
    simpa using hp
  have hpend : pending (upvoteThreads n) = n := by
    simp [pending, upvoteThreads, List.map_replicate, List.sum_replicate]
  have := execSched_invariant sched start (upvoteThreads n) hincr
  rw [hdone, hpend] at this
  simpa using this

/-- Witness for C2: two interleaved upvotes starting from 5 end at 7. -/
theorem claim_C2_no_lost_updates_witness :
    pending (execSched [0, 1] 5 (upvoteThreads 2)).2 = 0 ∧
    (execSched [0, 1] 5 (upvoteThreads 2)).1 = 5 + (2 : Nat) :=
  ⟨by decide, claim_C2_no_lost_updates 2 5 [0, 1] (by decide)⟩

end MoreRecipes
